import Mathlib

/-!
Verification of the `fltk-table` SmartTable widget (src/lib.rs).

The development shallowly embeds the state-relevant part of the crate:

* the grid of strings and the two header lists guarded by mutexes,
  together with the row/column counts stored in the underlying fltk
  table widget (`SmartTable` below);
* the default header label generators built inside `set_opts`;
* every structural mutation (`insert_row`, `remove_col`, ...);
* the `draw_cell` closure registered in `set_opts`;
* the edit-overlay machinery (`CellData`, the input commit callback, the
  Escape key handler and the `Event::Released` handler).

Rust `Vec` indexing, `Vec::insert`, `Vec::remove` and `assert!` panic on
out-of-range inputs; fallible steps are therefore modelled with `Option`
(`none` = panic) and whole operations with `Except σ σ`, where `.error s`
means the operation panicked while the shared state was `s` (all mutations
performed before the panic point are retained in `s`, matching what a
caller observes after catching the unwind).  `.ok s` means the operation
ran to completion.  Mutex `try_lock` outcomes are inputs of the functions
that perform them; in the single-threaded fragments they always succeed.

Machine integers: Rust `i32` values are modelled as `Int` and `usize`
casts (`x as usize`, which sign-extends and wraps at 2^64) by
`usizeOfI32`.  The `i32` arithmetic `self.table.rows() + 1` is modelled
with an overflow check (`i32Checked`), as in a debug build.
-/

/-- Rust `x as usize` for `x : i32` on a 64-bit target: sign-extend and wrap at `2^64`.
The literal is `2^64`. -/
def usizeOfI32 (i : Int) : Nat := (i % 18446744073709551616).toNat

/-- Rust `x as u8` for a nonnegative value: wrap at 256. -/
def u8OfNat (x : Nat) : Nat := x % 256

/-- Debug-profile `i32` overflow check: `some x` when `x` fits in `i32`
(`-2^31 ≤ x < 2^31`), `none` (overflow panic) otherwise. -/
def i32Checked (x : Int) : Option Int :=
  if -2147483648 ≤ x ∧ x < 2147483648 then some x else none

/-- Rust `Vec::insert(idx, a)`: panics when `idx > len`. -/
def vecInsert (l : List α) (idx : Nat) (a : α) : Option (List α) :=
  if idx ≤ l.length then some (l.insertIdx idx a) else none

/-- Rust `Vec::remove(idx)`: panics when `idx ≥ len`. -/
def vecRemove (l : List α) (idx : Nat) : Option (List α) :=
  if idx < l.length then some (l.eraseIdx idx) else none

/-- Rust `Vec::resize(n, a)`: truncate to `n` or pad with copies of `a`. -/
def vecResize (l : List α) (n : Nat) (a : α) : List α :=
  l.take n ++ List.replicate (n - l.length) a

/-- Rust indexed read `v[idx]`, with `none` for the out-of-range panic. -/
def vecGet (l : List α) (idx : Nat) : Option α := l[idx]?

/-- Rust indexed write `v[idx] = a`, with `none` for the out-of-range panic. -/
def vecSet (l : List α) (idx : Nat) (a : α) : Option (List α) :=
  if idx < l.length then some (l.set idx a) else none

/-- Grid read `data[row][col]` with the `as usize` casts of the two `i32` indices. -/
def matrixGet (m : List (List String)) (row col : Int) : Option String :=
  (m[usizeOfI32 row]?).bind fun r => r[usizeOfI32 col]?

/-- Grid write `data[row][col] = v`; `none` when either index panics. -/
def matrixSet (m : List (List String)) (row col : Int) (v : String) :
    Option (List (List String)) :=
  match m[usizeOfI32 row]? with
  | none => none
  | some r =>
    match vecSet r (usizeOfI32 col) v with
    | none => none
    | some r2 => some (m.set (usizeOfI32 row) r2)

/-- Default column header label for 0-based index `i`, as generated by the
loop in `set_opts` (src/lib.rs:226-240): single letters `A`..`Z` for
`i ≤ 25`, otherwise with `t = i / 26` either the two-letter label
(letter `t - 1`, then letter `i - 26 t`) when `t ≤ 26`, or the bare
decimal string of `i` when `t > 26`.  The loop index is the nonnegative
`i32` loop variable, so a `Nat` argument is faithful. -/
def colLabel (i : Nat) : String :=
  if i > 25 then
    let t := i / 26
    if t > 26 then toString i
    else
      String.mk [Char.ofNat (u8OfNat (t - 1 + 65)), Char.ofNat (u8OfNat (i - 26 * t + 65))]
  else String.mk [Char.ofNat (u8OfNat (i + 65))]

/-- Default column header list built by `set_opts` for `opts.cols` columns
(empty when `cols ≤ 0`, matching the `for i in 0..opts.cols` loop). -/
def colHeaderLabels (cols : Int) : List String :=
  (List.range cols.toNat).map colLabel

/-- Default row header list built by `set_opts`: `(i + 1).to_string()` for
each `i in 0..opts.rows`. -/
def rowHeaderLabels (rows : Int) : List String :=
  (List.range rows.toNat).map fun i => toString (i + 1)

/-- State-relevant part of the `SmartTable` widget: the mutex-guarded grid
and header lists, plus the row/column counts stored in the fltk table
widget (`self.table.rows()` / `self.table.cols()`, both `i32`). -/
structure SmartTable where
  data : List (List String)
  row_headers : List String
  col_headers : List String
  table_rows : Int
  table_cols : Int
deriving DecidableEq, Repr

namespace SmartTable

/-- `SmartTable::new` / `SmartTable::default()`: the grid and header lists
start out empty (`Default::default()`), and a fresh fltk table has 0 rows
and 0 columns. -/
def new : SmartTable :=
  { data := [], row_headers := [], col_headers := [], table_rows := 0, table_cols := 0 }

/-- `row_count()`: forwards to `self.table.rows()`. -/
def row_count (s : SmartTable) : Int := s.table_rows

/-- `column_count()`: forwards to `self.table.cols()`. -/
def column_count (s : SmartTable) : Int := s.table_cols

/-- State part of `set_opts`: resize the grid (`data.resize(rows, vec![])`
then each row `v.resize(cols, "")`), rebuild both default header lists
and store the declared dimensions via `set_rows` / `set_cols`. -/
def set_opts (s : SmartTable) (rows cols : Int) : SmartTable :=
  let data1 := vecResize s.data (usizeOfI32 rows) []
  let data2 := data1.map fun v => vecResize v (usizeOfI32 cols) ""
  { data := data2
    row_headers := rowHeaderLabels rows
    col_headers := colHeaderLabels cols
    table_rows := rows
    table_cols := cols }

/-- `cell_value(row, col)`: reads `data[row][col]`; `none` is the
out-of-bounds indexing panic. -/
def cell_value (s : SmartTable) (row col : Int) : Option String :=
  matrixGet s.data row col

/-- `set_cell_value(row, col, val)`: writes `data[row][col] = val`. -/
def set_cell_value (s : SmartTable) (row col : Int) (val : String) :
    Except SmartTable SmartTable :=
  match matrixSet s.data row col val with
  | none => .error s
  | some d => .ok { s with data := d }

/-- `row_header_value(row)`. -/
def row_header_value (s : SmartTable) (row : Int) : Option String :=
  vecGet s.row_headers (usizeOfI32 row)

/-- `col_header_value(col)`. -/
def col_header_value (s : SmartTable) (col : Int) : Option String :=
  vecGet s.col_headers (usizeOfI32 col)

/-- Continue with `k` on `some`, panic with state `ps` on `none`. -/
def orPanic (o : Option α) (ps : SmartTable) (k : α → Except SmartTable SmartTable) :
    Except SmartTable SmartTable :=
  match o with
  | none => .error ps
  | some a => k a

/-- `insert_empty_row(row, row_header)`: `data.insert(row, vec![])`, then
`data[row].resize(cols, "")` with `cols = self.column_count() as usize`,
then `row_headers.insert(row, hdr)`, then `set_rows(rows + 1)`. -/
def insert_empty_row (s : SmartTable) (row : Int) (row_header : String) :
    Except SmartTable SmartTable :=
  let cols := usizeOfI32 s.table_cols
  orPanic (vecInsert s.data (usizeOfI32 row) []) s fun d1 =>
  orPanic (vecGet d1 (usizeOfI32 row)) { s with data := d1 } fun v =>
  orPanic (vecSet d1 (usizeOfI32 row) (vecResize v cols "")) { s with data := d1 } fun d2 =>
  orPanic (vecInsert s.row_headers (usizeOfI32 row) row_header) { s with data := d2 } fun rh =>
  orPanic (i32Checked (s.table_rows + 1)) { s with data := d2, row_headers := rh } fun tr =>
  .ok { s with data := d2, row_headers := rh, table_rows := tr }

/-- `insert_row(row, row_header, vals)`: `assert!(cols == vals.len())`,
`data.insert(row, vals)`, then `row_headers.push(row_header)` (note: a
push, not an insert at `row`), then `set_rows(rows + 1)`. -/
def insert_row (s : SmartTable) (row : Int) (row_header : String) (vals : List String) :
    Except SmartTable SmartTable :=
  let cols := usizeOfI32 s.table_cols
  if cols = vals.length then
    orPanic (vecInsert s.data (usizeOfI32 row) vals) s fun d1 =>
    orPanic (i32Checked (s.table_rows + 1))
      { s with data := d1, row_headers := s.row_headers ++ [row_header] } fun tr =>
    .ok { s with data := d1, row_headers := s.row_headers ++ [row_header], table_rows := tr }
  else .error s

/-- `append_empty_row(row_header)`: `data.push(vec![])`, then
`data.last_mut().unwrap().resize(cols, "")`, then push of the header and
`set_rows(rows + 1)`. -/
def append_empty_row (s : SmartTable) (row_header : String) :
    Except SmartTable SmartTable :=
  let cols := usizeOfI32 s.table_cols
  let d1 := s.data ++ [([] : List String)]
  orPanic d1.getLast? s fun lastRow =>
  let d2 := d1.dropLast ++ [vecResize lastRow cols ""]
  orPanic (i32Checked (s.table_rows + 1))
    { s with data := d2, row_headers := s.row_headers ++ [row_header] } fun tr =>
  .ok { s with data := d2, row_headers := s.row_headers ++ [row_header], table_rows := tr }

/-- `append_row(row_header, vals)`: `assert!(cols == vals.len())`, push of
the row and of the header, `set_rows(rows + 1)`. -/
def append_row (s : SmartTable) (row_header : String) (vals : List String) :
    Except SmartTable SmartTable :=
  let cols := usizeOfI32 s.table_cols
  if cols = vals.length then
    orPanic (i32Checked (s.table_rows + 1))
      { s with data := s.data ++ [vals], row_headers := s.row_headers ++ [row_header] } fun tr =>
    .ok { s with
          data := s.data ++ [vals]
          row_headers := s.row_headers ++ [row_header]
          table_rows := tr }
  else .error s

/-- Loop `for v in data.iter_mut() { v.insert(col, String::new()) }`.  On a
panic (some row shorter than `col`) the rows already visited keep their
modification; `.error` returns the grid at the panic point. -/
def insertInEachRow (col : Nat) (a : String) :
    List (List String) → Except (List (List String)) (List (List String))
  | [] => .ok []
  | v :: rest =>
    match vecInsert v col a with
    | none => .error (v :: rest)
    | some v2 =>
      match insertInEachRow col a rest with
      | .error r1 => .error (v2 :: r1)
      | .ok r2 => .ok (v2 :: r2)

/-- `insert_empty_col(col, col_header)`: insert an empty cell at `col` in
every row, `col_headers.insert(col, hdr)`, `set_cols(cols + 1)`. -/
def insert_empty_col (s : SmartTable) (col : Int) (col_header : String) :
    Except SmartTable SmartTable :=
  match insertInEachRow (usizeOfI32 col) "" s.data with
  | .error d => .error { s with data := d }
  | .ok d =>
    orPanic (vecInsert s.col_headers (usizeOfI32 col) col_header) { s with data := d } fun ch =>
    orPanic (i32Checked (s.table_cols + 1)) { s with data := d, col_headers := ch } fun tc =>
    .ok { s with data := d, col_headers := ch, table_cols := tc }

/-- Loop `for v in data.iter_mut() { v.insert(col, vals[count]); count += 1 }`:
`vals[count]` itself panics when `count ≥ vals.len()`. -/
def insertValsInEachRow (col : Nat) (vals : List String) (count : Nat) :
    List (List String) → Except (List (List String)) (List (List String))
  | [] => .ok []
  | v :: rest =>
    match vecGet vals count with
    | none => .error (v :: rest)
    | some a =>
      match vecInsert v col a with
      | none => .error (v :: rest)
      | some v2 =>
        match insertValsInEachRow col vals (count + 1) rest with
        | .error r1 => .error (v2 :: r1)
        | .ok r2 => .ok (v2 :: r2)

/-- `insert_col(col, col_header, vals)`:
`assert!(vals.len() == self.table.rows() as usize)`, insert `vals[count]`
at `col` in each row, then `col_headers.push(col_header)` (a push, not an
insert at `col`), then `set_cols(cols + 1)`. -/
def insert_col (s : SmartTable) (col : Int) (col_header : String) (vals : List String) :
    Except SmartTable SmartTable :=
  if vals.length = usizeOfI32 s.table_rows then
    match insertValsInEachRow (usizeOfI32 col) vals 0 s.data with
    | .error d => .error { s with data := d }
    | .ok d =>
      orPanic (i32Checked (s.table_cols + 1))
        { s with data := d, col_headers := s.col_headers ++ [col_header] } fun tc =>
      .ok { s with data := d, col_headers := s.col_headers ++ [col_header], table_cols := tc }
  else .error s

/-- `append_empty_col(col_header)`: `v.push(String::new())` on every row
(never panics), push of the header, `set_cols(cols + 1)`. -/
def append_empty_col (s : SmartTable) (col_header : String) :
    Except SmartTable SmartTable :=
  let d := s.data.map fun v => v ++ [""]
  orPanic (i32Checked (s.table_cols + 1))
    { s with data := d, col_headers := s.col_headers ++ [col_header] } fun tc =>
  .ok { s with data := d, col_headers := s.col_headers ++ [col_header], table_cols := tc }

/-- Loop `for v in data.iter_mut() { v.push(vals[count]); count += 1 }`. -/
def pushValsInEachRow (vals : List String) (count : Nat) :
    List (List String) → Except (List (List String)) (List (List String))
  | [] => .ok []
  | v :: rest =>
    match vecGet vals count with
    | none => .error (v :: rest)
    | some a =>
      match pushValsInEachRow vals (count + 1) rest with
      | .error r1 => .error ((v ++ [a]) :: r1)
      | .ok r2 => .ok ((v ++ [a]) :: r2)

/-- `append_col(col_header, vals)`:
`assert!(vals.len() == self.table.rows() as usize)`, push `vals[count]`
onto each row, push of the header, `set_cols(cols + 1)`. -/
def append_col (s : SmartTable) (col_header : String) (vals : List String) :
    Except SmartTable SmartTable :=
  if vals.length = usizeOfI32 s.table_rows then
    match pushValsInEachRow vals 0 s.data with
    | .error d => .error { s with data := d }
    | .ok d =>
      orPanic (i32Checked (s.table_cols + 1))
        { s with data := d, col_headers := s.col_headers ++ [col_header] } fun tc =>
      .ok { s with data := d, col_headers := s.col_headers ++ [col_header], table_cols := tc }
  else .error s

/-- `remove_row(row)`: `data.remove(row)`, `row_headers.remove(row)`,
`set_rows(rows - 1)`. -/
def remove_row (s : SmartTable) (row : Int) : Except SmartTable SmartTable :=
  orPanic (vecRemove s.data (usizeOfI32 row)) s fun d =>
  orPanic (vecRemove s.row_headers (usizeOfI32 row)) { s with data := d } fun rh =>
  orPanic (i32Checked (s.table_rows - 1)) { s with data := d, row_headers := rh } fun tr =>
  .ok { s with data := d, row_headers := rh, table_rows := tr }

/-- Loop `for v in data.iter_mut() { v.remove(col) }`. -/
def removeInEachRow (col : Nat) :
    List (List String) → Except (List (List String)) (List (List String))
  | [] => .ok []
  | v :: rest =>
    match vecRemove v col with
    | none => .error (v :: rest)
    | some v2 =>
      match removeInEachRow col rest with
      | .error r1 => .error (v2 :: r1)
      | .ok r2 => .ok (v2 :: r2)

/-- `remove_col(col)`: remove index `col` of every row,
`col_headers.remove(col)`, `set_cols(cols - 1)`. -/
def remove_col (s : SmartTable) (col : Int) : Except SmartTable SmartTable :=
  match removeInEachRow (usizeOfI32 col) s.data with
  | .error d => .error { s with data := d }
  | .ok d =>
    orPanic (vecRemove s.col_headers (usizeOfI32 col)) { s with data := d } fun ch =>
    orPanic (i32Checked (s.table_cols - 1)) { s with data := d, col_headers := ch } fun tc =>
    .ok { s with data := d, col_headers := ch, table_cols := tc }

/-- `clear()`: overwrite every cell with the empty string; shape untouched. -/
def clear (s : SmartTable) : SmartTable :=
  { s with data := s.data.map fun v => v.map fun _ => "" }

/-- Well-formedness maintained by the widget: the two counts are valid
nonnegative `i32` values (the literal is `2^31`), the grid has
`table_rows` rows, every row has `table_cols` cells, and each header list
length matches the corresponding count. -/
def ShapeInv (s : SmartTable) : Prop :=
  0 ≤ s.table_rows ∧ s.table_rows < 2147483648 ∧
  0 ≤ s.table_cols ∧ s.table_cols < 2147483648 ∧
  s.data.length = s.table_rows.toNat ∧
  (∀ v ∈ s.data, v.length = s.table_cols.toNat) ∧
  s.row_headers.length = s.table_rows.toNat ∧
  s.col_headers.length = s.table_cols.toNat

instance (s : SmartTable) : Decidable (ShapeInv s) := by
  unfold ShapeInv; infer_instance

end SmartTable

/-- Cell information captured during `draw_cell` (src/lib.rs:98-106).  The
Rust struct is `#[derive(Default)]`, so before any selection every field
is 0. -/
structure CellData where
  row : Int
  col : Int
  x : Int
  y : Int
  w : Int
  h : Int
deriving DecidableEq, Repr

/-- `Default::default()` for `CellData`: all fields zero. -/
def CellData.default : CellData := ⟨0, 0, 0, 0, 0, 0⟩

/-- `CellData::select`: overwrite every field with the given cell. -/
def CellData.select (_c : CellData) (row col x y w h : Int) : CellData :=
  { row := row, col := col, x := x, y := y, w := w, h := h }

/-- Paint context delivered by the fltk table to the `draw_cell` closure;
`other` stands for every context handled by the wildcard arm. -/
inductive TableContext
  | startPage
  | colHeader
  | rowHeader
  | cell
  | other
deriving DecidableEq, Repr

/-- What a single `draw_cell` invocation rendered. -/
inductive DrawAction
  | setFont
  | header (txt : String)
  | cellBox (txt : String) (selected : Bool)
  | nothing
deriving DecidableEq, Repr

/-- The `draw_cell` closure registered in `set_opts` (src/lib.rs:257-292).
`dataAvail` / `rowHAvail` / `colHAvail` say whether the respective
`try_lock` succeeds.  A failed grid lock is handled with `if let Ok(..)`
(the closure falls through, rendering nothing), while the two header
locks are unwrapped (`try_lock().unwrap()`), and the header/cell lookups
are unchecked indexing — `.error` models those panics, carrying the
selection record as it stands at the panic point. -/
def draw_cell (dataAvail rowHAvail colHAvail : Bool)
    (data : List (List String)) (row_headers col_headers : List String)
    (ctx : TableContext) (row col : Int) (isSelected : Bool)
    (cell : CellData) (x y w h : Int) : Except CellData (DrawAction × CellData) :=
  if dataAvail then
    if rowHAvail then
      if colHAvail then
        match ctx with
        | .startPage => .ok (.setFont, cell)
        | .colHeader =>
          match col_headers[usizeOfI32 col]? with
          | none => .error cell
          | some t => .ok (.header t, cell)
        | .rowHeader =>
          match row_headers[usizeOfI32 row]? with
          | none => .error cell
          | some t => .ok (.header t, cell)
        | .cell =>
          let cell2 := if isSelected then cell.select row col x y w h else cell
          match matrixGet data row col with
          | none => .error cell2
          | some t => .ok (.cellBox t isSelected, cell2)
        | .other => .ok (.nothing, cell)
      else .error cell
    else .error cell
  else .ok (.nothing, cell)

/-- State shared by the editable-table callbacks (src/lib.rs:294-344): the
grid, the `CellData` selection record, the overlay `Input` widget (its
text, visibility and rectangle) and whether `table.redraw()` was
requested. -/
structure EditSession where
  data : List (List String)
  cell : CellData
  inp_value : String
  inp_visible : Bool
  inp_x : Int
  inp_y : Int
  inp_w : Int
  inp_h : Int
  redraw : Bool
deriving DecidableEq, Repr

/-- The `Cell` arm of `draw_cell` when `t.is_selected(row, col)` holds:
record the cell into the selection state, then read `data[row][col]` for
rendering (`.error` = out-of-bounds panic, selection already updated). -/
def paintSelectedCell (s : EditSession) (row col x y w h : Int) :
    Except EditSession EditSession :=
  let s1 := { s with cell := s.cell.select row col x y w h }
  match matrixGet s1.data row col with
  | none => .error s1
  | some _ => .ok s1

/-- The input widget's commit callback (src/lib.rs:300-311, fired on
`CallbackTrigger::EnterKey`): write the overlay text into
`data[cell.row][cell.col]` (unchecked indexing — `.error` is the panic,
which happens before any write), then clear the overlay text, hide it
and request a table redraw. -/
def commitInput (s : EditSession) : Except EditSession EditSession :=
  match matrixSet s.data s.cell.row s.cell.col s.inp_value with
  | none => .error s
  | some d => .ok { s with data := d, inp_value := "", inp_visible := false, redraw := true }

/-- The input widget's `Event::KeyUp` handler for the Escape key
(src/lib.rs:313-323): hide the overlay, touching nothing else. -/
def cancelInput (s : EditSession) : EditSession :=
  { s with inp_visible := false }

/-- The table's `Event::Released` handler (src/lib.rs:325-343).  When the
grid `try_lock` succeeds: resize the overlay to the recorded rectangle,
fill it with `data[cell.row][cell.col]` (unchecked indexing — `.error` is
the panic, after the resize already happened), show it and report the
event handled (`true`).  When the lock fails the event is unhandled and
nothing changes. -/
def releasedEvent (dataLockAvail : Bool) (s : EditSession) :
    Except EditSession (Bool × EditSession) :=
  if dataLockAvail then
    let s1 := { s with inp_x := s.cell.x, inp_y := s.cell.y, inp_w := s.cell.w, inp_h := s.cell.h }
    match matrixGet s1.data s1.cell.row s1.cell.col with
    | none => .error s1
    | some v => .ok (true, { s1 with inp_value := v, inp_visible := true })
  else .ok (false, s)

/-- Helper: `x as u8` is the identity below 256. -/
theorem u8OfNat_eq_of_lt {x : Nat} (h : x < 256) : u8OfNat x = x := by
  unfold u8OfNat; omega

/-- C1: for every column index `i` generated at construction (`set_opts`
with `cols` columns, `i < cols`), the column header label is: the single
letter `'A' + i` for `i ≤ 25`; the two-letter string encoding
`(i / 26) - 1` then `i - 26 * (i / 26)` for `26 ≤ i ≤ 701`; and the bare
decimal string of `i` for `i ≥ 702` — in particular 0 ↦ "A", 25 ↦ "Z",
26 ↦ "AA", 27 ↦ "AB", 51 ↦ "AZ", 52 ↦ "BA". -/
theorem C1_column_header_labels (i : Nat) (rows cols : Int) (hi : i < cols.toNat) :
    (SmartTable.new.set_opts rows cols).col_headers[i]? = some (colLabel i) ∧
    (i ≤ 25 → colLabel i = String.mk [Char.ofNat (i + 65)]) ∧
    (26 ≤ i → i ≤ 701 →
      colLabel i =
        String.mk [Char.ofNat (i / 26 - 1 + 65), Char.ofNat (i - 26 * (i / 26) + 65)]) ∧
    (702 ≤ i → colLabel i = toString i) ∧
    colLabel 0 = "A" ∧ colLabel 25 = "Z" ∧ colLabel 26 = "AA" ∧
    colLabel 27 = "AB" ∧ colLabel 51 = "AZ" ∧ colLabel 52 = "BA" := by
  refine ⟨?_, ?_, ?_, ?_, by decide, by decide, by decide, by decide, by decide, by decide⟩
  · simp [SmartTable.set_opts, SmartTable.new, colHeaderLabels, List.getElem?_map,
      List.getElem?_range hi]
  · intro h
    simp only [colLabel]
    rw [if_neg (by omega), u8OfNat_eq_of_lt (by omega)]
  · intro h1 h2
    simp only [colLabel]
    rw [if_pos (by omega), if_neg (by omega),
      u8OfNat_eq_of_lt (by omega), u8OfNat_eq_of_lt (by omega)]
  · intro h
    simp only [colLabel]
    rw [if_pos (by omega), if_pos (by omega)]

/-- Witness for C1 at `i = 27` in a table constructed with 30 columns. -/
theorem C1_column_header_labels_witness :
    (SmartTable.new.set_opts 3 30).col_headers[27]? = some (colLabel 27) ∧ colLabel 27 = "AB" := by
  have h := C1_column_header_labels 27 3 30 (by decide)
  exact ⟨h.1, h.2.2.2.2.2.2.2.1⟩

/-- Success characterisation of `orPanic`. -/
theorem SmartTable.orPanic_ok {o : Option α} {ps s' : SmartTable}
    {k : α → Except SmartTable SmartTable} :
    SmartTable.orPanic o ps k = .ok s' ↔ ∃ a, o = some a ∧ k a = .ok s' := by
  cases o <;> simp [SmartTable.orPanic]

/-- Success characterisation of `vecInsert`. -/
theorem vecInsert_eq_some {l l2 : List α} {n : Nat} {a : α} :
    vecInsert l n a = some l2 ↔ n ≤ l.length ∧ l.insertIdx n a = l2 := by
  unfold vecInsert; split <;> simp_all

/-- Success characterisation of `vecRemove`. -/
theorem vecRemove_eq_some {l l2 : List α} {n : Nat} :
    vecRemove l n = some l2 ↔ n < l.length ∧ l.eraseIdx n = l2 := by
  unfold vecRemove; split <;> simp_all

/-- Success characterisation of `vecSet`. -/
theorem vecSet_eq_some {l l2 : List α} {n : Nat} {a : α} :
    vecSet l n a = some l2 ↔ n < l.length ∧ l.set n a = l2 := by
  unfold vecSet; split <;> simp_all

/-- Success characterisation of `i32Checked`. -/
theorem i32Checked_eq_some {x y : Int} :
    i32Checked x = some y ↔ (-2147483648 ≤ x ∧ x < 2147483648) ∧ x = y := by
  unfold i32Checked; split <;> simp_all

/-- Length of `vecResize`. -/
theorem length_vecResize (l : List α) (n : Nat) (a : α) : (vecResize l n a).length = n := by
  simp [vecResize]; omega

/-- `vecResize` of the empty list is a `replicate`. -/
theorem vecResize_nil (n : Nat) (a : α) : vecResize ([] : List α) n a = List.replicate n a := by
  simp [vecResize]

/-- The `as usize` cast is the identity on values that fit. -/
theorem usizeOfI32_eq_toNat {i : Int} (h0 : 0 ≤ i) (h1 : i < 18446744073709551616) :
    usizeOfI32 i = i.toNat := by
  unfold usizeOfI32; omega

/-- Reading an `insertIdx` list at the insertion point gives the new element. -/
theorem getElem?_insertIdx_self :
    ∀ (n : Nat) (l : List α) (a : α), n ≤ l.length → (l.insertIdx n a)[n]? = some a
  | 0, l, a, _ => by simp
  | n + 1, [], a, h => by simp at h
  | n + 1, x :: xs, a, h => by
    rw [List.insertIdx_succ_cons]
    simpa using getElem?_insertIdx_self n xs a (by simpa using h)

/-- Overwriting the freshly inserted element. -/
theorem insertIdx_set_self :
    ∀ (n : Nat) (l : List α) (a b : α), n ≤ l.length →
      (l.insertIdx n a).set n b = l.insertIdx n b
  | 0, l, a, b, _ => by simp
  | n + 1, [], a, b, h => by simp at h
  | n + 1, x :: xs, a, b, h => by
    rw [List.insertIdx_succ_cons, List.insertIdx_succ_cons, List.set_cons_succ]
    rw [insertIdx_set_self n xs a b (by simpa using h)]

open SmartTable

/-- Shape of a successful `insertInEachRow` run: one more cell per row. -/
theorem insertInEachRow_ok_shape (col : Nat) (a : String) (L : Nat)
    (d : List (List String)) :
    ∀ d', (∀ v ∈ d, v.length = L) → insertInEachRow col a d = .ok d' →
      d'.length = d.length ∧ ∀ v' ∈ d', v'.length = L + 1 := by
  induction d with
  | nil =>
    intro d' _ h
    simp only [insertInEachRow] at h
    cases h
    simp
  | cons v rest ih =>
    intro d' hL h
    simp only [insertInEachRow] at h
    cases hv : vecInsert v col a with
    | none => simp only [hv] at h; cases h
    | some v2 =>
      simp only [hv] at h
      cases hr : insertInEachRow col a rest with
      | error r1 => simp only [hr] at h; cases h
      | ok r2 =>
        simp only [hr] at h
        cases h
        obtain ⟨hlen, hmem⟩ := ih r2 (fun x hx => hL x (by simp [hx])) hr
        obtain ⟨hcle, hv2⟩ := vecInsert_eq_some.mp hv
        refine ⟨by simp [hlen], ?_⟩
        intro v' hv'
        rcases List.mem_cons.mp hv' with h1 | h1
        · subst h1
          rw [← hv2, List.length_insertIdx _ _ hcle, hL v (by simp)]
        · exact hmem v' h1

/-- Shape of a successful `insertValsInEachRow` run: one more cell per row. -/
theorem insertValsInEachRow_ok_shape (col : Nat) (vals : List String) (L : Nat)
    (d : List (List String)) :
    ∀ count d', (∀ v ∈ d, v.length = L) → insertValsInEachRow col vals count d = .ok d' →
      d'.length = d.length ∧ ∀ v' ∈ d', v'.length = L + 1 := by
  induction d with
  | nil =>
    intro count d' _ h
    simp only [insertValsInEachRow] at h
    cases h
    simp
  | cons v rest ih =>
    intro count d' hL h
    simp only [insertValsInEachRow] at h
    cases hg : vecGet vals count with
    | none => simp only [hg] at h; cases h
    | some a =>
      simp only [hg] at h
      cases hv : vecInsert v col a with
      | none => simp only [hv] at h; cases h
      | some v2 =>
        simp only [hv] at h
        cases hr : insertValsInEachRow col vals (count + 1) rest with
        | error r1 => simp only [hr] at h; cases h
        | ok r2 =>
          simp only [hr] at h
          cases h
          obtain ⟨hlen, hmem⟩ := ih (count + 1) r2 (fun x hx => hL x (by simp [hx])) hr
          obtain ⟨hcle, hv2⟩ := vecInsert_eq_some.mp hv
          refine ⟨by simp [hlen], ?_⟩
          intro v' hv'
          rcases List.mem_cons.mp hv' with h1 | h1
          · subst h1
            rw [← hv2, List.length_insertIdx _ _ hcle, hL v (by simp)]
          · exact hmem v' h1

/-- Shape of a successful `pushValsInEachRow` run: one more cell per row. -/
theorem pushValsInEachRow_ok_shape (vals : List String) (L : Nat)
    (d : List (List String)) :
    ∀ count d', (∀ v ∈ d, v.length = L) → pushValsInEachRow vals count d = .ok d' →
      d'.length = d.length ∧ ∀ v' ∈ d', v'.length = L + 1 := by
  induction d with
  | nil =>
    intro count d' _ h
    simp only [pushValsInEachRow] at h
    cases h
    simp
  | cons v rest ih =>
    intro count d' hL h
    simp only [pushValsInEachRow] at h
    cases hg : vecGet vals count with
    | none => simp only [hg] at h; cases h
    | some a =>
      simp only [hg] at h
      cases hr : pushValsInEachRow vals (count + 1) rest with
      | error r1 => simp only [hr] at h; cases h
      | ok r2 =>
        simp only [hr] at h
        cases h
        obtain ⟨hlen, hmem⟩ := ih (count + 1) r2 (fun x hx => hL x (by simp [hx])) hr
        refine ⟨by simp [hlen], ?_⟩
        intro v' hv'
        rcases List.mem_cons.mp hv' with h1 | h1
        · subst h1
          simp [hL v (by simp)]
        · exact hmem v' h1

/-- Shape of a successful `removeInEachRow` run: one less cell per row. -/
theorem removeInEachRow_ok_shape (col : Nat) (L : Nat)
    (d : List (List String)) :
    ∀ d', (∀ v ∈ d, v.length = L) → removeInEachRow col d = .ok d' →
      d'.length = d.length ∧ ∀ v' ∈ d', v'.length = L - 1 := by
  induction d with
  | nil =>
    intro d' _ h
    simp only [removeInEachRow] at h
    cases h
    simp
  | cons v rest ih =>
    intro d' hL h
    simp only [removeInEachRow] at h
    cases hv : vecRemove v col with
    | none => simp only [hv] at h; cases h
    | some v2 =>
      simp only [hv] at h
      cases hr : removeInEachRow col rest with
      | error r1 => simp only [hr] at h; cases h
      | ok r2 =>
        simp only [hr] at h
        cases h
        obtain ⟨hlen, hmem⟩ := ih r2 (fun x hx => hL x (by simp [hx])) hr
        obtain ⟨hclt, hv2⟩ := vecRemove_eq_some.mp hv
        refine ⟨by simp [hlen], ?_⟩
        intro v' hv'
        rcases List.mem_cons.mp hv' with h1 | h1
        · subst h1
          rw [← hv2, List.length_eraseIdx]
          rw [hL v (by simp)] at hclt ⊢
          simp [hclt]
        · exact hmem v' h1

/-- `insert_empty_row` preserves the shape invariant and the column count. -/
theorem invPreserve_insert_empty_row {s s' : SmartTable} {row : Int} {hdr : String}
    (hs : ShapeInv s) (h : insert_empty_row s row hdr = .ok s') :
    ShapeInv s' ∧ s'.table_cols = s.table_cols := by
  obtain ⟨hr0, hr1, hc0, hc1, hdl, hdm, hrh, hch⟩ := hs
  simp only [insert_empty_row, orPanic_ok, Except.ok.injEq] at h
  obtain ⟨d1, hd1, v, hv, d2, hd2, rh, hrh2, tr, htr, hs'⟩ := h
  subst hs'
  obtain ⟨hR, hd1e⟩ := vecInsert_eq_some.mp hd1
  obtain ⟨hR2, hd2e⟩ := vecSet_eq_some.mp hd2
  obtain ⟨htrb, htre⟩ := i32Checked_eq_some.mp htr
  obtain ⟨hRh, hrhe⟩ := vecInsert_eq_some.mp hrh2
  have hC : usizeOfI32 s.table_cols = s.table_cols.toNat := usizeOfI32_eq_toNat hc0 (by omega)
  have hveq : v = [] := by
    rw [← hd1e] at hv
    rw [vecGet, getElem?_insertIdx_self _ _ _ hR] at hv
    exact (Option.some.injEq _ _ ▸ hv).symm
  have hd2i : d2 = s.data.insertIdx (usizeOfI32 row) (List.replicate (usizeOfI32 s.table_cols) "") := by
    rw [← hd2e, ← hd1e, hveq, vecResize_nil, insertIdx_set_self _ _ _ _ hR]
  refine ⟨?_, rfl⟩
  simp only [ShapeInv]
  refine ⟨by omega, by omega, hc0, hc1, ?_, ?_, ?_, hch⟩
  · rw [hd2i, List.length_insertIdx _ _ hR, hdl]
    omega
  · intro v' hv'
    rw [hd2i] at hv'
    rcases (List.mem_insertIdx hR).mp hv' with h1 | h1
    · rw [h1, List.length_replicate, hC]
    · exact hdm v' h1
  · rw [← hrhe, List.length_insertIdx _ _ hRh, hrh]
    omega

/-- `insert_row` preserves the shape invariant and the column count. -/
theorem invPreserve_insert_row {s s' : SmartTable} {row : Int} {hdr : String}
    {vals : List String} (hs : ShapeInv s) (h : insert_row s row hdr vals = .ok s') :
    ShapeInv s' ∧ s'.table_cols = s.table_cols := by
  obtain ⟨hr0, hr1, hc0, hc1, hdl, hdm, hrh, hch⟩ := hs
  simp only [insert_row] at h
  split at h
  case isFalse => cases h
  case isTrue hlen =>
    simp only [orPanic_ok, Except.ok.injEq] at h
    obtain ⟨d1, hd1, tr, htr, hs'⟩ := h
    subst hs'
    obtain ⟨hR, hd1e⟩ := vecInsert_eq_some.mp hd1
    obtain ⟨htrb, htre⟩ := i32Checked_eq_some.mp htr
    have hC : usizeOfI32 s.table_cols = s.table_cols.toNat := usizeOfI32_eq_toNat hc0 (by omega)
    refine ⟨?_, rfl⟩
    simp only [ShapeInv]
    refine ⟨by omega, by omega, hc0, hc1, ?_, ?_, ?_, hch⟩
    · rw [← hd1e, List.length_insertIdx _ _ hR, hdl]
      omega
    · intro v' hv'
      rw [← hd1e] at hv'
      rcases (List.mem_insertIdx hR).mp hv' with h1 | h1
      · rw [h1, ← hlen, hC]
      · exact hdm v' h1
    · simp [hrh]
      omega

/-- `append_empty_row` preserves the shape invariant and the column count. -/
theorem invPreserve_append_empty_row {s s' : SmartTable} {hdr : String}
    (hs : ShapeInv s) (h : append_empty_row s hdr = .ok s') :
    ShapeInv s' ∧ s'.table_cols = s.table_cols := by
  obtain ⟨hr0, hr1, hc0, hc1, hdl, hdm, hrh, hch⟩ := hs
  simp only [append_empty_row, orPanic_ok, Except.ok.injEq] at h
  obtain ⟨lastRow, hlast, tr, htr, hs'⟩ := h
  subst hs'
  obtain ⟨htrb, htre⟩ := i32Checked_eq_some.mp htr
  have hC : usizeOfI32 s.table_cols = s.table_cols.toNat := usizeOfI32_eq_toNat hc0 (by omega)
  have hlr : lastRow = [] := by
    rw [List.getLast?_concat] at hlast
    exact (Option.some.injEq _ _ ▸ hlast).symm
  refine ⟨?_, rfl⟩
  simp only [ShapeInv]
  refine ⟨by omega, by omega, hc0, hc1, ?_, ?_, ?_, hch⟩
  · simp only [List.dropLast_concat, List.length_append, List.length_singleton, hdl]
    omega
  · intro v' hv'
    simp only [List.dropLast_concat] at hv'
    rcases List.mem_append.mp hv' with h1 | h1
    · exact hdm v' h1
    · simp only [List.mem_singleton] at h1
      rw [h1, hlr, vecResize_nil, List.length_replicate, hC]
  · simp only [List.length_append, List.length_singleton, hrh]
    omega

/-- `append_row` preserves the shape invariant and the column count. -/
theorem invPreserve_append_row {s s' : SmartTable} {hdr : String} {vals : List String}
    (hs : ShapeInv s) (h : append_row s hdr vals = .ok s') :
    ShapeInv s' ∧ s'.table_cols = s.table_cols := by
  obtain ⟨hr0, hr1, hc0, hc1, hdl, hdm, hrh, hch⟩ := hs
  simp only [append_row] at h
  split at h
  case isFalse => cases h
  case isTrue hlen =>
    simp only [orPanic_ok, Except.ok.injEq] at h
    obtain ⟨tr, htr, hs'⟩ := h
    subst hs'
    obtain ⟨htrb, htre⟩ := i32Checked_eq_some.mp htr
    have hC : usizeOfI32 s.table_cols = s.table_cols.toNat := usizeOfI32_eq_toNat hc0 (by omega)
    refine ⟨?_, rfl⟩
    simp only [ShapeInv]
    refine ⟨by omega, by omega, hc0, hc1, ?_, ?_, ?_, hch⟩
    · simp only [List.length_append, List.length_singleton, hdl]
      omega
    · intro v' hv'
      rcases List.mem_append.mp hv' with h1 | h1
      · exact hdm v' h1
      · simp only [List.mem_singleton] at h1
        rw [h1, ← hlen, hC]
    · simp only [List.length_append, List.length_singleton, hrh]
      omega

/-- `insert_empty_col` preserves the shape invariant and the row count. -/
theorem invPreserve_insert_empty_col {s s' : SmartTable} {col : Int} {hdr : String}
    (hs : ShapeInv s) (h : insert_empty_col s col hdr = .ok s') :
    ShapeInv s' ∧ s'.table_rows = s.table_rows := by
  obtain ⟨hr0, hr1, hc0, hc1, hdl, hdm, hrh, hch⟩ := hs
  simp only [insert_empty_col] at h
  cases hloop : insertInEachRow (usizeOfI32 col) "" s.data with
  | error d => simp only [hloop] at h; cases h
  | ok d =>
    simp only [hloop, orPanic_ok, Except.ok.injEq] at h
    obtain ⟨ch, hchI, tc, htc, hs'⟩ := h
    subst hs'
    obtain ⟨htcb, htce⟩ := i32Checked_eq_some.mp htc
    obtain ⟨hlen, hmem⟩ := insertInEachRow_ok_shape _ _ _ _ _ hdm hloop
    obtain ⟨hchle, hche⟩ := vecInsert_eq_some.mp hchI
    refine ⟨?_, rfl⟩
    simp only [ShapeInv]
    refine ⟨hr0, hr1, by omega, by omega, by rw [hlen, hdl], ?_, hrh, ?_⟩
    · intro v' hv'
      rw [show tc.toNat = s.table_cols.toNat + 1 by omega]
      exact hmem v' hv'
    · rw [← hche, List.length_insertIdx _ _ hchle, hch]
      omega

/-- `insert_col` preserves the shape invariant and the row count. -/
theorem invPreserve_insert_col {s s' : SmartTable} {col : Int} {hdr : String}
    {vals : List String} (hs : ShapeInv s) (h : insert_col s col hdr vals = .ok s') :
    ShapeInv s' ∧ s'.table_rows = s.table_rows := by
  obtain ⟨hr0, hr1, hc0, hc1, hdl, hdm, hrh, hch⟩ := hs
  simp only [insert_col] at h
  split at h
  case isFalse => cases h
  case isTrue hlen =>
    cases hloop : insertValsInEachRow (usizeOfI32 col) vals 0 s.data with
    | error d => simp only [hloop] at h; cases h
    | ok d =>
      simp only [hloop, orPanic_ok, Except.ok.injEq] at h
      obtain ⟨tc, htc, hs'⟩ := h
      subst hs'
      obtain ⟨htcb, htce⟩ := i32Checked_eq_some.mp htc
      obtain ⟨hdlen, hmem⟩ := insertValsInEachRow_ok_shape _ _ _ _ _ _ hdm hloop
      refine ⟨?_, rfl⟩
      simp only [ShapeInv]
      refine ⟨hr0, hr1, by omega, by omega, by rw [hdlen, hdl], ?_, hrh, ?_⟩
      · intro v' hv'
        rw [show tc.toNat = s.table_cols.toNat + 1 by omega]
        exact hmem v' hv'
      · simp only [List.length_append, List.length_singleton, hch]
        omega

/-- `append_empty_col` preserves the shape invariant and the row count. -/
theorem invPreserve_append_empty_col {s s' : SmartTable} {hdr : String}
    (hs : ShapeInv s) (h : append_empty_col s hdr = .ok s') :
    ShapeInv s' ∧ s'.table_rows = s.table_rows := by
  obtain ⟨hr0, hr1, hc0, hc1, hdl, hdm, hrh, hch⟩ := hs
  simp only [append_empty_col, orPanic_ok, Except.ok.injEq] at h
  obtain ⟨tc, htc, hs'⟩ := h
  subst hs'
  obtain ⟨htcb, htce⟩ := i32Checked_eq_some.mp htc
  refine ⟨?_, rfl⟩
  simp only [ShapeInv]
  refine ⟨hr0, hr1, by omega, by omega, by rw [List.length_map, hdl], ?_, hrh, ?_⟩
  · intro v' hv'
    obtain ⟨v, hv, hveq⟩ := List.mem_map.mp hv'
    rw [← hveq, List.length_append, List.length_singleton, hdm v hv]
    omega
  · simp only [List.length_append, List.length_singleton, hch]
    omega

/-- `append_col` preserves the shape invariant and the row count. -/
theorem invPreserve_append_col {s s' : SmartTable} {hdr : String} {vals : List String}
    (hs : ShapeInv s) (h : append_col s hdr vals = .ok s') :
    ShapeInv s' ∧ s'.table_rows = s.table_rows := by
  obtain ⟨hr0, hr1, hc0, hc1, hdl, hdm, hrh, hch⟩ := hs
  simp only [append_col] at h
  split at h
  case isFalse => cases h
  case isTrue hlen =>
    cases hloop : pushValsInEachRow vals 0 s.data with
    | error d => simp only [hloop] at h; cases h
    | ok d =>
      simp only [hloop, orPanic_ok, Except.ok.injEq] at h
      obtain ⟨tc, htc, hs'⟩ := h
      subst hs'
      obtain ⟨htcb, htce⟩ := i32Checked_eq_some.mp htc
      obtain ⟨hdlen, hmem⟩ := pushValsInEachRow_ok_shape _ _ _ _ _ hdm hloop
      refine ⟨?_, rfl⟩
      simp only [ShapeInv]
      refine ⟨hr0, hr1, by omega, by omega, by rw [hdlen, hdl], ?_, hrh, ?_⟩
      · intro v' hv'
        rw [show tc.toNat = s.table_cols.toNat + 1 by omega]
        exact hmem v' hv'
      · simp only [List.length_append, List.length_singleton, hch]
        omega

/-- `remove_row` preserves the shape invariant and the column count. -/
theorem invPreserve_remove_row {s s' : SmartTable} {row : Int}
    (hs : ShapeInv s) (h : remove_row s row = .ok s') :
    ShapeInv s' ∧ s'.table_cols = s.table_cols := by
  obtain ⟨hr0, hr1, hc0, hc1, hdl, hdm, hrh, hch⟩ := hs
  simp only [remove_row, orPanic_ok, Except.ok.injEq] at h
  obtain ⟨d, hd, rh, hrh2, tr, htr, hs'⟩ := h
  subst hs'
  obtain ⟨hR, hde⟩ := vecRemove_eq_some.mp hd
  obtain ⟨hRh, hrhe⟩ := vecRemove_eq_some.mp hrh2
  obtain ⟨htrb, htre⟩ := i32Checked_eq_some.mp htr
  refine ⟨?_, rfl⟩
  simp only [ShapeInv]
  refine ⟨by omega, by omega, hc0, hc1, ?_, ?_, ?_, hch⟩
  · rw [← hde, List.length_eraseIdx, if_pos hR, hdl]
    omega
  · intro v' hv'
    rw [← hde] at hv'
    exact hdm v' (List.mem_of_mem_eraseIdx hv')
  · rw [← hrhe, List.length_eraseIdx, if_pos hRh, hrh]
    omega

/-- `remove_col` preserves the shape invariant and the row count. -/
theorem invPreserve_remove_col {s s' : SmartTable} {col : Int}
    (hs : ShapeInv s) (h : remove_col s col = .ok s') :
    ShapeInv s' ∧ s'.table_rows = s.table_rows := by
  obtain ⟨hr0, hr1, hc0, hc1, hdl, hdm, hrh, hch⟩ := hs
  simp only [remove_col] at h
  cases hloop : removeInEachRow (usizeOfI32 col) s.data with
  | error d => simp only [hloop] at h; cases h
  | ok d =>
    simp only [hloop, orPanic_ok, Except.ok.injEq] at h
    obtain ⟨ch, hchR, tc, htc, hs'⟩ := h
    subst hs'
    obtain ⟨hchlt, hche⟩ := vecRemove_eq_some.mp hchR
    obtain ⟨htcb, htce⟩ := i32Checked_eq_some.mp htc
    obtain ⟨hdlen, hmem⟩ := removeInEachRow_ok_shape _ _ _ _ hdm hloop
    have hc1' : 1 ≤ s.table_cols := by
      rw [hch] at hchlt
      omega
    refine ⟨?_, rfl⟩
    simp only [ShapeInv]
    refine ⟨hr0, hr1, by omega, by omega, by rw [hdlen, hdl], ?_, hrh, ?_⟩
    · intro v' hv'
      rw [show tc.toNat = s.table_cols.toNat - 1 by omega]
      exact hmem v' hv'
    · rw [← hche, List.length_eraseIdx, if_pos hchlt, hch]
      omega

/-- Example: freshly constructed 2×2 table. -/
def tbl2x2 : SmartTable := SmartTable.new.set_opts 2 2

/-- Example: `tbl2x2` after `insert_empty_row(0, "H")`. -/
def tbl2x2ins : SmartTable :=
  { data := [["", ""], ["", ""], ["", ""]], row_headers := ["H", "1", "2"],
    col_headers := ["A", "B"], table_rows := 3, table_cols := 2 }

/-- C4: after every successful structural mutation the grid stays
rectangular (every row's length equals `column_count()`), row operations
leave `column_count()` unchanged, column operations leave `row_count()`
unchanged, and each header list length matches the corresponding count —
all of which is `ShapeInv`. -/
theorem C4_shape_invariant (s : SmartTable) (hs : ShapeInv s) :
    (∀ row hdr s', insert_empty_row s row hdr = .ok s' →
      ShapeInv s' ∧ s'.table_cols = s.table_cols) ∧
    (∀ row hdr vals s', insert_row s row hdr vals = .ok s' →
      ShapeInv s' ∧ s'.table_cols = s.table_cols) ∧
    (∀ hdr s', append_empty_row s hdr = .ok s' →
      ShapeInv s' ∧ s'.table_cols = s.table_cols) ∧
    (∀ hdr vals s', append_row s hdr vals = .ok s' →
      ShapeInv s' ∧ s'.table_cols = s.table_cols) ∧
    (∀ col hdr s', insert_empty_col s col hdr = .ok s' →
      ShapeInv s' ∧ s'.table_rows = s.table_rows) ∧
    (∀ col hdr vals s', insert_col s col hdr vals = .ok s' →
      ShapeInv s' ∧ s'.table_rows = s.table_rows) ∧
    (∀ hdr s', append_empty_col s hdr = .ok s' →
      ShapeInv s' ∧ s'.table_rows = s.table_rows) ∧
    (∀ hdr vals s', append_col s hdr vals = .ok s' →
      ShapeInv s' ∧ s'.table_rows = s.table_rows) ∧
    (∀ row s', remove_row s row = .ok s' →
      ShapeInv s' ∧ s'.table_cols = s.table_cols) ∧
    (∀ col s', remove_col s col = .ok s' →
      ShapeInv s' ∧ s'.table_rows = s.table_rows) :=
  ⟨fun _ _ _ h => invPreserve_insert_empty_row hs h,
   fun _ _ _ _ h => invPreserve_insert_row hs h,
   fun _ _ h => invPreserve_append_empty_row hs h,
   fun _ _ _ h => invPreserve_append_row hs h,
   fun _ _ _ h => invPreserve_insert_empty_col hs h,
   fun _ _ _ _ h => invPreserve_insert_col hs h,
   fun _ _ h => invPreserve_append_empty_col hs h,
   fun _ _ _ h => invPreserve_append_col hs h,
   fun _ _ h => invPreserve_remove_row hs h,
   fun _ _ h => invPreserve_remove_col hs h⟩

/-- Witness for C4: `insert_empty_row(0, "H")` on a fresh 2×2 table. -/
theorem C4_shape_invariant_witness :
    ShapeInv tbl2x2ins ∧ tbl2x2ins.table_cols = tbl2x2.table_cols := by
  exact (C4_shape_invariant tbl2x2 (by decide)).1 0 "H" tbl2x2ins (by rfl)

/-- Example: `tbl2x2` after `insert_row(0, "H", ["a", "b"])`. -/
def tbl2x2insRow : SmartTable :=
  { data := [["a", "b"], ["", ""], ["", ""]], row_headers := ["1", "2", "H"],
    col_headers := ["A", "B"], table_rows := 3, table_cols := 2 }

/-- Example: `tbl2x2` after `insert_col(0, "V", ["x", "y"])`. -/
def tbl2x2insCol : SmartTable :=
  { data := [["x", "", ""], ["y", "", ""]], row_headers := ["1", "2"],
    col_headers := ["A", "B", "V"], table_rows := 2, table_cols := 3 }

/-- C3 (evaluation at the failing input): `insert_row(0, "H", ["a","b"])`
on a fresh 2×2 table inserts the data row at index 0 but pushes the
header onto the end of the header list, so `row_header_value(0)` is the
old "1" and the supplied "H" sits at index 2; `insert_col` likewise
pushes the column header to the end. -/
theorem C3_insert_header_appended_not_inserted :
    insert_row tbl2x2 0 "H" ["a", "b"] = .ok tbl2x2insRow ∧
    row_header_value tbl2x2insRow 0 = some "1" ∧
    row_header_value tbl2x2insRow 2 = some "H" ∧
    insert_col tbl2x2 0 "V" ["x", "y"] = .ok tbl2x2insCol ∧
    col_header_value tbl2x2insCol 0 = some "A" ∧
    col_header_value tbl2x2insCol 2 = some "V" :=
  ⟨rfl, rfl, rfl, rfl, rfl, rfl⟩

/-- C6: an explicit-value insert/append whose value-slice length differs
from the orthogonal dimension fails on the `assert!` before any mutation:
the operation panics with the state completely unchanged. -/
theorem C6_mismatch_leaves_state_unmodified (s : SmartTable) :
    (∀ row hdr (vals : List String), vals.length ≠ usizeOfI32 s.table_cols →
      insert_row s row hdr vals = .error s) ∧
    (∀ hdr (vals : List String), vals.length ≠ usizeOfI32 s.table_cols →
      append_row s hdr vals = .error s) ∧
    (∀ col hdr (vals : List String), vals.length ≠ usizeOfI32 s.table_rows →
      insert_col s col hdr vals = .error s) ∧
    (∀ hdr (vals : List String), vals.length ≠ usizeOfI32 s.table_rows →
      append_col s hdr vals = .error s) := by
  refine ⟨?_, ?_, ?_, ?_⟩
  · intro row hdr vals hne
    simp only [insert_row]
    rw [if_neg fun h => hne h.symm]
  · intro hdr vals hne
    simp only [append_row]
    rw [if_neg fun h => hne h.symm]
  · intro col hdr vals hne
    simp only [insert_col]
    rw [if_neg hne]
  · intro hdr vals hne
    simp only [append_col]
    rw [if_neg hne]

/-- Witness for C6: a 1-element row for a 2-column table. -/
theorem C6_mismatch_leaves_state_unmodified_witness :
    insert_row tbl2x2 0 "H" ["only"] = .error tbl2x2 :=
  (C6_mismatch_leaves_state_unmodified tbl2x2).1 0 "H" ["only"] (by decide)

/-- The grid of a freshly constructed table is a `rows × cols` block of
empty strings. -/
theorem set_opts_new_data (rows cols : Int) (hr : 0 ≤ rows) (hr1 : rows < 2147483648)
    (hc : 0 ≤ cols) (hc1 : cols < 2147483648) :
    (SmartTable.new.set_opts rows cols).data =
      List.replicate rows.toNat (List.replicate cols.toNat "") := by
  simp only [SmartTable.new, set_opts]
  rw [usizeOfI32_eq_toNat hr (by omega), usizeOfI32_eq_toNat hc (by omega)]
  rw [vecResize_nil, List.map_replicate, vecResize_nil]

/-- C8: constructing a fresh table with `rows × cols` (both nonnegative
`i32` values) yields `row_count() = rows`, `column_count() = cols`, and
every in-range cell reads as empty text. -/
theorem C8_fresh_construction (rows cols : Int) (hr : 0 ≤ rows) (hr1 : rows < 2147483648)
    (hc : 0 ≤ cols) (hc1 : cols < 2147483648) :
    (SmartTable.new.set_opts rows cols).row_count = rows ∧
    (SmartTable.new.set_opts rows cols).column_count = cols ∧
    ∀ r c : Int, 0 ≤ r → r < rows → 0 ≤ c → c < cols →
      (SmartTable.new.set_opts rows cols).cell_value r c = some "" := by
  refine ⟨rfl, rfl, ?_⟩
  intro r c hr0 hrlt hc0 hclt
  simp only [cell_value, matrixGet]
  rw [set_opts_new_data rows cols hr hr1 hc hc1,
    usizeOfI32_eq_toNat hr0 (by omega), usizeOfI32_eq_toNat hc0 (by omega),
    List.getElem?_replicate, if_pos (show r.toNat < rows.toNat by omega),
    Option.some_bind, List.getElem?_replicate,
    if_pos (show c.toNat < cols.toNat by omega)]

/-- Witness for C8 on a 2×3 table, reading cell (1, 2). -/
theorem C8_fresh_construction_witness :
    (SmartTable.new.set_opts 2 3).row_count = 2 ∧
    (SmartTable.new.set_opts 2 3).column_count = 3 ∧
    (SmartTable.new.set_opts 2 3).cell_value 1 2 = some "" := by
  have h := C8_fresh_construction 2 3 (by decide) (by decide) (by decide) (by decide)
  exact ⟨h.1, h.2.1, h.2.2 1 2 (by decide) (by decide) (by decide) (by decide)⟩

/-- C9: within bounds, `set_cell_value(row, col, v)` succeeds, an
immediately following `cell_value(row, col)` returns `v`, and every other
cell is unchanged by the pair of calls. -/
theorem C9_set_get_roundtrip (s : SmartTable) (row col : Int) (v : String)
    (hrow0 : 0 ≤ row) (hrow1 : row < 2147483648)
    (hcol0 : 0 ≤ col) (hcol1 : col < 2147483648)
    (hin : (s.cell_value row col).isSome) :
    (∃ s', s.set_cell_value row col v = .ok s') ∧
    ∀ s', s.set_cell_value row col v = .ok s' →
      s'.cell_value row col = some v ∧
      ∀ r' c' : Int, 0 ≤ r' → r' < 2147483648 → 0 ≤ c' → c' < 2147483648 →
        ¬(r' = row ∧ c' = col) → s'.cell_value r' c' = s.cell_value r' c' := by
  cases hrl : s.data[usizeOfI32 row]? with
  | none =>
    rw [cell_value, matrixGet, hrl] at hin
    simp at hin
  | some rowList =>
    cases hcv : rowList[usizeOfI32 col]? with
    | none =>
      rw [cell_value, matrixGet, hrl, Option.some_bind, hcv] at hin
      simp at hin
    | some w =>
      obtain ⟨hclt, -⟩ := List.getElem?_eq_some.mp hcv
      obtain ⟨hRlt, -⟩ := List.getElem?_eq_some.mp hrl
      have hset : s.set_cell_value row col v =
          .ok { s with data := s.data.set (usizeOfI32 row) (rowList.set (usizeOfI32 col) v) } := by
        simp only [set_cell_value, matrixSet, hrl]
        rw [show vecSet rowList (usizeOfI32 col) v =
          some (rowList.set (usizeOfI32 col) v) from by simp [vecSet, hclt]]
      refine ⟨⟨_, hset⟩, ?_⟩
      intro s' hs'
      have hseq := Except.ok.inj (hset.symm.trans hs')
      subst hseq
      constructor
      · rw [cell_value, matrixGet, List.getElem?_set_self hRlt, Option.some_bind,
          List.getElem?_set_self (by simpa using hclt)]
      · intro r' c' h0 h1 h2 h3 hne
        by_cases hr' : r' = row
        · subst hr'
          have hcc : c' ≠ col := fun hc' => hne ⟨rfl, hc'⟩
          have hCC : usizeOfI32 col ≠ usizeOfI32 c' := by
            rw [usizeOfI32_eq_toNat hcol0 (by omega), usizeOfI32_eq_toNat h2 (by omega)]
            omega
          rw [cell_value, cell_value, matrixGet, matrixGet,
            List.getElem?_set_self hRlt, hrl, Option.some_bind, Option.some_bind,
            List.getElem?_set_ne hCC]
        · have hRR : usizeOfI32 row ≠ usizeOfI32 r' := by
            rw [usizeOfI32_eq_toNat hrow0 (by omega), usizeOfI32_eq_toNat h0 (by omega)]
            omega
          rw [cell_value, cell_value, matrixGet, matrixGet, List.getElem?_set_ne hRR]

/-- Example: `tbl2x2` after `set_cell_value(0, 1, "v")`. -/
def tbl2x2set : SmartTable :=
  { data := [["", "v"], ["", ""]], row_headers := ["1", "2"], col_headers := ["A", "B"],
    table_rows := 2, table_cols := 2 }

/-- Witness for C9: write "v" at (0, 1) of a fresh 2×2 table, read it
back, and observe that (1, 1) is unchanged. -/
theorem C9_set_get_roundtrip_witness :
    tbl2x2set.cell_value 0 1 = some "v" ∧
    tbl2x2set.cell_value 1 1 = tbl2x2.cell_value 1 1 := by
  have h := C9_set_get_roundtrip tbl2x2 0 1 "v"
    (by decide) (by decide) (by decide) (by decide) (by decide)
  have h2 := h.2 tbl2x2set (by rfl)
  exact ⟨h2.1, h2.2 1 1 (by decide) (by decide) (by decide) (by decide) (by decide)⟩

/-- An out-of-range grid write panics exactly when the read at the same
position does. -/
theorem matrixSet_eq_none_of_get_none {m : List (List String)} {row col : Int} {v : String}
    (h : matrixGet m row col = none) : matrixSet m row col v = none := by
  rw [matrixGet] at h
  cases hrl : m[usizeOfI32 row]? with
  | none => simp [matrixSet, hrl]
  | some r =>
    rw [hrl, Option.some_bind] at h
    have hge : r.length ≤ usizeOfI32 col := by
      by_contra hlt
      push_neg at hlt
      rw [List.getElem?_eq_getElem hlt] at h
      cases h
    simp [matrixSet, hrl, vecSet, Nat.not_lt.mpr hge]

/-- C2 (amended): when the recorded (row, col) no longer exists in the
grid, the commit callback panics on the out-of-bounds indexed write — it
is a crash, not a silent discard; the panic fires before any mutation, so
the state at the panic is the unchanged session. -/
theorem C2_commit_out_of_bounds_panics (s : EditSession)
    (h : matrixGet s.data s.cell.row s.cell.col = none) :
    commitInput s = .error s := by
  simp only [commitInput, matrixSet_eq_none_of_get_none h]

/-- Example edit session: a 1×1 grid whose recorded selection is the
stale cell (1, 1). -/
def sessStale : EditSession :=
  { data := [[""]], cell := ⟨1, 1, 0, 0, 10, 10⟩, inp_value := "X", inp_visible := true,
    inp_x := 0, inp_y := 0, inp_w := 10, inp_h := 10, redraw := false }

/-- C2 counterexample: committing while the recorded selection (1, 1)
lies outside the 1×1 grid panics (`.error`), refuting the claimed
silent-discard behaviour. -/
theorem C2_counterexample : commitInput sessStale = .error sessStale := rfl

/-- Witness for the amended C2 at the concrete stale session. -/
theorem C2_commit_out_of_bounds_panics_witness :
    commitInput sessStale = .error sessStale :=
  C2_commit_out_of_bounds_panics sessStale rfl

/-- Example: an editable session over a fresh 3×3 grid, before any
selection: overlay hidden and empty, selection record at its
`#[derive(Default)]` value. -/
def sess3 : EditSession :=
  { data := (SmartTable.new.set_opts 3 3).data, cell := CellData.default,
    inp_value := "", inp_visible := false, inp_x := 0, inp_y := 0, inp_w := 0, inp_h := 0,
    redraw := false }

/-- `sess3` after cell (1, 1) is painted as selected at rectangle
(40, 30, 80, 25). -/
def sess3A : EditSession := { sess3 with cell := ⟨1, 1, 40, 30, 80, 25⟩ }

/-- `sess3A` after the pointer release: overlay at the recorded
rectangle, filled with the (empty) cell text, visible. -/
def sess3B : EditSession :=
  { sess3A with
    inp_x := 40
    inp_y := 30
    inp_w := 80
    inp_h := 25
    inp_value := ""
    inp_visible := true }

/-- The session after committing "X9" into cell (1, 1). -/
def sess3C : EditSession :=
  { sess3B with
    data := [["", "", ""], ["", "X9", ""], ["", "", ""]]
    inp_value := ""
    inp_visible := false
    redraw := true }

/-- `sess3C` after cell (0, 0) is painted as selected at rectangle
(0, 30, 40, 25). -/
def sess3D : EditSession := { sess3C with cell := ⟨0, 0, 0, 30, 40, 25⟩ }

/-- `sess3D` after the pointer release over cell (0, 0). -/
def sess3E : EditSession :=
  { sess3D with
    inp_x := 0
    inp_y := 30
    inp_w := 40
    inp_h := 25
    inp_value := ""
    inp_visible := true }

/-- C7: edit lifecycle on a 3×3 grid of empty cells.  Select (1, 1)
during a paint, release the pointer, type "X9" and commit: cell (1, 1)
now reads "X9", the overlay text is cleared, the overlay is hidden and a
redraw was requested.  Then select (0, 0), release, and cancel with
Escape: the overlay is hidden and cell (0, 0) still reads as empty. -/
theorem C7_edit_lifecycle :
    paintSelectedCell sess3 1 1 40 30 80 25 = .ok sess3A ∧
    releasedEvent true sess3A = .ok (true, sess3B) ∧
    commitInput { sess3B with inp_value := "X9" } = .ok sess3C ∧
    matrixGet sess3C.data 1 1 = some "X9" ∧
    sess3C.inp_value = "" ∧ sess3C.inp_visible = false ∧ sess3C.redraw = true ∧
    paintSelectedCell sess3C 0 0 0 30 40 25 = .ok sess3D ∧
    releasedEvent true sess3D = .ok (true, sess3E) ∧
    (cancelInput sess3E).inp_visible = false ∧
    matrixGet (cancelInput sess3E).data 0 0 = some "" :=
  ⟨rfl, rfl, rfl, rfl, rfl, rfl, rfl, rfl, rfl, rfl, rfl⟩

/-- C10 (amended): the selection record exists before any selection — it
is default-initialised to cell (0, 0) with a zero-sized rectangle — and a
pointer release on an editable table before the first selection consumes
it: the overlay is resized to that zero rectangle, populated from cell
(0, 0), and shown. -/
theorem C10_default_selection_is_consumed (s : EditSession)
    (hc : s.cell = CellData.default) (v : String)
    (hv : matrixGet s.data 0 0 = some v) :
    releasedEvent true s =
      .ok (true, { s with
                   inp_x := 0
                   inp_y := 0
                   inp_w := 0
                   inp_h := 0
                   inp_value := v
                   inp_visible := true }) := by
  simp only [releasedEvent, if_true, hc, CellData.default, hv]

/-- C10 counterexample: on `sess3` (editable, no cell ever painted as
selected), a pointer release positions the overlay at the defaulted
zero-sized rectangle of cell (0, 0) and shows it — the claim says this
never happens. -/
theorem C10_counterexample :
    releasedEvent true sess3 =
      .ok (true, { sess3 with
                   inp_x := 0
                   inp_y := 0
                   inp_w := 0
                   inp_h := 0
                   inp_value := ""
                   inp_visible := true }) ∧
    sess3.cell = CellData.default ∧ CellData.default.w = 0 ∧ CellData.default.h = 0 :=
  ⟨rfl, rfl, rfl, rfl⟩

/-- Witness for the amended C10 at the concrete fresh session. -/
theorem C10_default_selection_is_consumed_witness :
    releasedEvent true sess3 =
      .ok (true, { sess3 with
                   inp_x := 0
                   inp_y := 0
                   inp_w := 0
                   inp_h := 0
                   inp_value := ""
                   inp_visible := true }) :=
  C10_default_selection_is_consumed sess3 rfl "" rfl

/-- C5 (amended): only the grid lock degrades to a no-op.  If the grid
`try_lock` fails the dispatcher renders nothing for that paint cycle; but
if the grid lock is acquired while a header-list `try_lock` fails, or a
requested header index is outside the corresponding header list, the draw
callback panics instead of rendering nothing. -/
theorem C5_draw_lock_and_bounds_policy (dataAvail rowHAvail colHAvail : Bool)
    (data : List (List String)) (row_headers col_headers : List String)
    (ctx : TableContext) (row col : Int) (isSelected : Bool)
    (cell : CellData) (x y w h : Int) :
    (dataAvail = false →
      draw_cell dataAvail rowHAvail colHAvail data row_headers col_headers ctx row col
        isSelected cell x y w h = .ok (.nothing, cell)) ∧
    (dataAvail = true → rowHAvail = false →
      draw_cell dataAvail rowHAvail colHAvail data row_headers col_headers ctx row col
        isSelected cell x y w h = .error cell) ∧
    (dataAvail = true → rowHAvail = true → colHAvail = false →
      draw_cell dataAvail rowHAvail colHAvail data row_headers col_headers ctx row col
        isSelected cell x y w h = .error cell) ∧
    (dataAvail = true → rowHAvail = true → colHAvail = true →
      col_headers[usizeOfI32 col]? = none →
      draw_cell dataAvail rowHAvail colHAvail data row_headers col_headers .colHeader row col
        isSelected cell x y w h = .error cell) ∧
    (dataAvail = true → rowHAvail = true → colHAvail = true →
      row_headers[usizeOfI32 row]? = none →
      draw_cell dataAvail rowHAvail colHAvail data row_headers col_headers .rowHeader row col
        isSelected cell x y w h = .error cell) := by
  refine ⟨?_, ?_, ?_, ?_, ?_⟩
  · intro h1
    subst h1
    simp [draw_cell]
  · intro h1 h2
    subst h1
    subst h2
    simp [draw_cell]
  · intro h1 h2 h3
    subst h1
    subst h2
    subst h3
    simp [draw_cell]
  · intro h1 h2 h3 hn
    subst h1
    subst h2
    subst h3
    simp [draw_cell, hn]
  · intro h1 h2 h3 hn
    subst h1
    subst h2
    subst h3
    simp [draw_cell, hn]

/-- C5 counterexample: grid lock free but row-header lock unavailable
panics; and with all locks free, an out-of-range column-header index
panics — in both cases the dispatcher does not render-nothing. -/
theorem C5_counterexample :
    draw_cell true false true [[""]] ["1"] ["A"] .rowHeader 0 0 false CellData.default 0 0 10 10
      = .error CellData.default ∧
    draw_cell true true true [[""]] ["1"] ["A"] .colHeader 0 5 false CellData.default 0 0 10 10
      = .error CellData.default :=
  ⟨rfl, rfl⟩

/-- Witness for the amended C5: an unavailable grid lock renders nothing. -/
theorem C5_draw_lock_and_bounds_policy_witness :
    draw_cell false true true [[""]] ["1"] ["A"] .cell 0 0 false CellData.default 1 2 3 4
      = .ok (.nothing, CellData.default) :=
  (C5_draw_lock_and_bounds_policy false true true [[""]] ["1"] ["A"] .cell 0 0 false
    CellData.default 1 2 3 4).1 rfl
